import Mathlib

/-!
Verification of the Supe-Cook backend against its specification.

The repository holds two services:
* a recipe-catalog search service (src/main.py) backed by a SQLite file, and
* an account/favorites service (src/app/main.py) backed by MongoDB.

Both are embedded shallowly below: handlers become pure functions over an
explicit database state, Python strings become Lean strings, MongoDB
collections become lists of records (find_one returns the first match,
insert_one appends), and bcrypt hashing, JWT signing, the profile-image
network probe and the SQLite ingredient deserialisation (Python eval) are
abstracted as function parameters since they are external effects.
-/

namespace SupeCook

/-! ### Python string primitives -/

/-- ASCII lowercasing of one character: the semantics of Python str.lower
restricted to ASCII input (codes 65-90 map to 97-122, all else unchanged). -/
def lowerChar (c : Char) : Char :=
  if 65 ≤ c.toNat ∧ c.toNat ≤ 90 then Char.ofNat (c.toNat + 32) else c

/-- Python str.lower, character by character. -/
def lowerStr (s : String) : String := String.mk (s.data.map lowerChar)

/-- Whether the first list is an initial segment of the second
(auxiliary for the substring test). -/
def leadMatch : List Char → List Char → Bool
  | [], _ => true
  | _ :: _, [] => false
  | a :: as, b :: bs => a == b && leadMatch as bs

/-- Whether the needle occurs contiguously inside the haystack. -/
def subMem (needle : List Char) : List Char → Bool
  | [] => needle.isEmpty
  | b :: bs => leadMatch needle (b :: bs) || subMem needle bs

/-- Python substring membership: the expression needle in haystack. -/
def hasSub (needle haystack : String) : Bool := subMem needle.data haystack.data

/-- Auxiliary for pySplit: acc holds the current word reversed. -/
def pySplitAux (acc : List Char) : List Char → List String
  | [] => if acc.isEmpty then [] else [String.mk acc.reverse]
  | c :: cs =>
    if c.isWhitespace then
      (if acc.isEmpty then [] else [String.mk acc.reverse]) ++ pySplitAux [] cs
    else pySplitAux (c :: acc) cs

/-- Python str.split with no argument: splits on runs of whitespace and
never yields an empty token. -/
def pySplit (s : String) : List String := pySplitAux [] s.data

/-! ### Recipe search service (src/main.py) -/

/-- One raw row of the recipes table: id, name, serialised ingredient list,
instructions (SELECT * FROM recipes). -/
structure RecipeRow where
  id : Nat
  name : String
  ingredientsText : String
  instructions : String
deriving DecidableEq

/-- A structured recipe as returned by the service. -/
structure Recipe where
  id : Nat
  name : String
  ingredients : List String
  instructions : String
deriving DecidableEq

/-- State of the SQLite backing file at DB_PATH: absent, failing with an
operational error, or holding a table of rows. -/
inductive CatalogDb where
  | missing
  | opError (msg : String)
  | table (rows : List RecipeRow)

/-- Return value of the catalog helpers: either a JSONResponse carrying an
HTTP status and message, or a list of structured recipes. -/
inductive CatalogResult where
  | jsonError (status : Nat) (message : String)
  | recipes (rs : List Recipe)
deriving DecidableEq

/-- The dict built for each row inside get_all_recipes; evalIng abstracts
Python eval applied to the serialised ingredient column. -/
def structureRecipe (evalIng : String → List String) (r : RecipeRow) : Recipe :=
  { id := r.id, name := r.name, ingredients := evalIng r.ingredientsText,
    instructions := r.instructions }

/-- get_all_recipes: 404 JSONResponse when the file is missing, 500 on an
OperationalError, otherwise every row structured. -/
def get_all_recipes (evalIng : String → List String) (db : CatalogDb) : CatalogResult :=
  match db with
  | .missing => .jsonError 404 "Database file not found."
  | .opError e => .jsonError 500 (String.append "Database error: " e)
  | .table rows => .recipes (rows.map (structureRecipe evalIng))

/-- search_recipes: propagate a JSONResponse from get_all_recipes, else keep
the recipes whose lowercased name contains every word of
set(query.lower().split()). -/
def search_recipes (evalIng : String → List String) (db : CatalogDb)
    (query : String) : CatalogResult :=
  match get_all_recipes evalIng db with
  | .jsonError s m => .jsonError s m
  | .recipes recipes =>
    let query_words := (pySplit (lowerStr query)).dedup
    .recipes (recipes.filter (fun r =>
      query_words.all (fun w => hasSub w (lowerStr r.name))))

/-- search_recipes_by_ingredients: keep the recipes where every requested
ingredient (lowercased, then lowercased again as in the source) occurs in
some entry of the recipe's own ingredient list. -/
def search_recipes_by_ingredients (evalIng : String → List String) (db : CatalogDb)
    (ingredients : List String) : CatalogResult :=
  match get_all_recipes evalIng db with
  | .jsonError s m => .jsonError s m
  | .recipes recipes =>
    let ingredient_words := ingredients.map lowerStr
    .recipes (recipes.filter (fun r =>
      ingredient_words.all (fun ing =>
        r.ingredients.any (fun item => hasSub (lowerStr ing) (lowerStr item)))))

/-- An HTTP response of the search service: a bare JSONResponse or a body
of the shape results: ... (the body may itself embed a propagated
JSONResponse, exactly as the source wraps whatever search_recipes returns). -/
inductive SearchResponse where
  | errorResponse (status : Nat) (message : String)
  | results (body : CatalogResult)
deriving DecidableEq

/-- GET /search endpoint: 400 when the query string is empty (Python
falsiness of a string), else wrap search_recipes. -/
def search (evalIng : String → List String) (db : CatalogDb)
    (query : String) : SearchResponse :=
  if query = "" then .errorResponse 400 "Query parameter is required."
  else .results (search_recipes evalIng db query)

/-- POST /search_by_ingredients endpoint: 400 when the list is empty, else
wrap search_recipes_by_ingredients. -/
def search_by_ingredients (evalIng : String → List String) (db : CatalogDb)
    (ingredients : List String) : SearchResponse :=
  if ingredients = [] then .errorResponse 400 "Ingredients list is required."
  else .results (search_recipes_by_ingredients evalIng db ingredients)

/-- GET /all_recipes endpoint: pass a JSONResponse through unwrapped, else
wrap the rows in results. -/
def get_all (evalIng : String → List String) (db : CatalogDb) : SearchResponse :=
  match get_all_recipes evalIng db with
  | .jsonError s m => .errorResponse s m
  | .recipes rs => .results (.recipes rs)

/-! ### Account and favorites service (src/app/main.py) -/

/-- Abstract password-hashing scheme standing for the passlib bcrypt
CryptContext: hash is get_password_hash, verify is verify_password
(plain password first, stored hash second). -/
structure HashScheme where
  hash : String → String
  verify : String → String → Bool

/-- A stored user document in the users collection; password holds the
hash, profile_image is None when never supplied. -/
structure UserRec where
  name : String
  email : String
  password : String
  profile_image : Option String
deriving DecidableEq

/-- A stored favorite-recipe document, tagged with the owner's email. -/
structure FavRec where
  image : String
  name : String
  ingredients : List String
  instructions : String
  email : String
deriving DecidableEq

/-- The MongoDB state: the users and favorite_recipes collections as lists
in insertion order. -/
structure AppDb where
  users : List UserRec
  favorites : List FavRec
deriving DecidableEq

/-- An HTTPException surfaced to the client. -/
structure HttpError where
  status : Nat
  detail : String
deriving DecidableEq

/-- Outcome of a handler: the database state it leaves behind, paired with
either an HTTPException or a success value. -/
abbrev Handler (α : Type) := AppDb × Except HttpError α

/-- The pydantic User request body. An Option field is none when the field
was absent from the request, so that dict(exclude_unset=True) keeps exactly
the some fields together with the always-required name and email. -/
structure UserIn where
  name : String
  email : String
  password : Option String
  profile_image : Option String
deriving DecidableEq

/-- The pydantic FavoriteRecipe request body. -/
structure FavoriteRecipeIn where
  image : String
  name : String
  ingredients : List String
  instructions : String
deriving DecidableEq

/-- ACCESS_TOKEN_EXPIRE_MINUTES from the source. -/
def ACCESS_TOKEN_EXPIRE_MINUTES : Nat := 30

/-- The payload a JWT carries once decoded: subject and expiry (seconds
since the epoch); the HMAC signature is abstracted away, so a token is
identified with its decoded payload. -/
structure TokenPayload where
  sub : String
  exp : Nat
deriving DecidableEq

/-- The response model of POST /token. -/
structure Token where
  access_token : TokenPayload
  token_type : String
deriving DecidableEq

/-- create_access_token: expiry is now plus the supplied delta, defaulting
to ACCESS_TOKEN_EXPIRE_MINUTES minutes. -/
def create_access_token (now : Nat) (sub : String) (expires_delta : Option Nat) :
    TokenPayload :=
  { sub := sub, exp := now + expires_delta.getD (ACCESS_TOKEN_EXPIRE_MINUTES * 60) }

/-- users_collection.find_one on an email filter: first matching document. -/
def findUserByEmail (db : AppDb) (email : String) : Option UserRec :=
  db.users.find? (fun u => u.email == email)

/-- favorites_collection.find_one on an email and name filter. -/
def findFavorite (db : AppDb) (email name : String) : Option FavRec :=
  db.favorites.find? (fun f => f.email == email && f.name == name)

/-- POST /users/ (create_user): 400 when the email is already registered,
otherwise insert the user with a hashed password. A request whose password
field is absent makes get_password_hash raise in the source, which the
framework surfaces as a 500. -/
def create_user (hs : HashScheme) (db : AppDb) (user : UserIn) : Handler String :=
  match findUserByEmail db user.email with
  | some _ => (db, .error ⟨400, "Email already registered"⟩)
  | none =>
    match user.password with
    | none => (db, .error ⟨500, "Internal Server Error"⟩)
    | some pw =>
      let newUser : UserRec :=
        { name := user.name, email := user.email, password := hs.hash pw,
          profile_image := user.profile_image }
      ({ db with users := db.users ++ [newUser] }, .ok "User created successfully")

/-- POST /token (login_for_access_token): 401 unless a user with the form
username exists and the password verifies; on success issue a bearer token
for the stored email with the default expiry. -/
def login_for_access_token (hs : HashScheme) (db : AppDb) (now : Nat)
    (username password : String) : Except HttpError Token :=
  match findUserByEmail db username with
  | none => .error ⟨401, "Invalid email or password"⟩
  | some user =>
    if hs.verify password user.password then
      .ok { access_token := create_access_token now user.email none,
            token_type := "bearer" }
    else .error ⟨401, "Invalid email or password"⟩

/-- Python truthiness of the optional profile_image field: an absent field
and the empty string are both falsy. -/
def pyTruthyOpt (o : Option String) : Bool :=
  match o with
  | none => false
  | some s => !(s == "")

/-- The effect of update_one with a $set of dict(exclude_unset=True) on one
stored user: name and email are always present in the request, password is
rehashed when present, profile_image overwritten when present. -/
def applyUpdate (hs : HashScheme) (user : UserIn) (u : UserRec) : UserRec :=
  { name := user.name
    email := user.email
    password := match user.password with
      | some pw => hs.hash pw
      | none => u.password
    profile_image := match user.profile_image with
      | some url => some url
      | none => u.profile_image }

/-- update_one: rewrite the first document matching p with f and report
modified_count, which stays 0 when the rewrite changes nothing. -/
def updateFirst (p : UserRec → Bool) (f : UserRec → UserRec) :
    List UserRec → List UserRec × Nat
  | [] => ([], 0)
  | u :: us =>
    if p u then (f u :: us, if f u = u then 0 else 1)
    else
      let r := updateFirst p f us
      (u :: r.1, r.2)

/-- PUT /users/ (update_user): 403 when the body email differs from the
authenticated email, 400 when a truthy profile_image fails the reachability
probe (imageOk abstracts check_image_url), 404 when update_one modified
nothing, else the partial update succeeds. -/
def update_user (hs : HashScheme) (imageOk : String → Bool) (db : AppDb)
    (current_email : String) (user : UserIn) : Handler String :=
  if !(current_email == user.email) then
    (db, .error ⟨403, "You can only update your own profile"⟩)
  else if pyTruthyOpt user.profile_image && !(imageOk (user.profile_image.getD "")) then
    (db, .error ⟨400, "Provided image URL is not accessible"⟩)
  else
    let r := updateFirst (fun u => u.email == current_email) (applyUpdate hs user) db.users
    if r.2 = 0 then (db, .error ⟨404, "User not found or no changes made"⟩)
    else ({ db with users := r.1 }, .ok "Profile updated successfully")

/-- delete_one: remove the first element matching p and report
deleted_count. -/
def deleteFirst {α : Type} (p : α → Bool) : List α → List α × Nat
  | [] => ([], 0)
  | a :: as =>
    if p a then (as, 1)
    else
      let r := deleteFirst p as
      (a :: r.1, r.2)

/-- DELETE /users/delete_account/ (delete_user_account): first delete_many
removes every favorite owned by the caller, then delete_one removes the
user; 404 when no user document was deleted. -/
def delete_user_account (db : AppDb) (current_email : String) : Handler String :=
  let favs := db.favorites.filter (fun f => !(f.email == current_email))
  let r := deleteFirst (fun u => u.email == current_email) db.users
  let db2 : AppDb := { users := r.1, favorites := favs }
  if r.2 = 0 then (db2, .error ⟨404, "User not found"⟩)
  else (db2, .ok "User account and associated data deleted successfully")

/-- POST /recipes/ (add_favorite_recipe): 400 when the caller already has a
favorite of that name, else insert the recipe tagged with the caller's
email. -/
def add_favorite_recipe (db : AppDb) (current_email : String)
    (recipe : FavoriteRecipeIn) : Handler String :=
  let recipe_dict : FavRec :=
    { image := recipe.image, name := recipe.name, ingredients := recipe.ingredients,
      instructions := recipe.instructions, email := current_email }
  match findFavorite db current_email recipe.name with
  | some _ => (db, .error ⟨400, "Recipe with this title already exists for the user"⟩)
  | none => ({ db with favorites := db.favorites ++ [recipe_dict] },
             .ok "Recipe added successfully")

/-- DELETE /delete_recipes/ (delete_favorite_recipe): 404 when the caller
owns no favorite of that name, else delete_one on the email and name
filter. -/
def delete_favorite_recipe (db : AppDb) (current_email : String)
    (title : String) : Handler String :=
  match findFavorite db current_email title with
  | none => (db, .error ⟨404, "Recipe not found or you don't have permission to delete it"⟩)
  | some _ =>
    let r := deleteFirst (fun f => f.email == current_email && f.name == title) db.favorites
    ({ db with favorites := r.1 }, .ok "Recipe deleted successfully")

/-! ### Specification-side predicates -/

/-- Spec reading of search_by_name: every whitespace-delimited token of the
query occurs in the recipe name as a case-insensitive substring. -/
def nameMatchesQuery (query : String) (r : Recipe) : Prop :=
  ∀ w ∈ pySplit query, hasSub (lowerStr w) (lowerStr r.name) = true

/-- Spec reading of search_by_ingredients: for every requested ingredient
some entry of the recipe's ingredient list contains it case-insensitively. -/
def ingredientsMatch (ingredients : List String) (r : Recipe) : Prop :=
  ∀ ing ∈ ingredients, ∃ item ∈ r.ingredients,
    hasSub (lowerStr ing) (lowerStr item) = true

/-- Emails are pairwise distinct across the users collection (the business
key the spec declares). -/
def emailsUnique (db : AppDb) : Prop := (db.users.map UserRec.email).Nodup

/-- The favorites invariant: no two stored favorites share both owner email
and recipe name. -/
def favKeyUnique (l : List FavRec) : Prop :=
  l.Pairwise (fun a b => ¬(a.email = b.email ∧ a.name = b.name))

/-! ### Demonstration data used by the witness theorems -/

/-- A concrete hashing scheme exercising the handlers. -/
def hsDemo : HashScheme :=
  { hash := fun s => String.append "h" s,
    verify := fun p h => h == String.append "h" p }

/-- A concrete ingredient deserialiser: the raw text becomes a one-entry list. -/
def evalDemo : String → List String := fun s => [s]

/-- A reachability probe accepting every URL. -/
def imageOkDemo : String → Bool := fun _ => true

/-- Two concrete catalog rows. -/
def rowsDemo : List RecipeRow :=
  [ { id := 1, name := "Creamy Chicken Noodle Soup", ingredientsText := "salt",
      instructions := "cook" },
    { id := 2, name := "Beef Stew", ingredientsText := "beef", instructions := "stew" } ]

/-- A concrete stored user (password is hsDemo.hash of pw). -/
def aliceDemo : UserRec :=
  { name := "Alice", email := "alice@example.com", password := "hpw",
    profile_image := none }

/-- A concrete stored favorite owned by Alice. -/
def cakeDemo : FavRec :=
  { image := "i", name := "Cake", ingredients := ["flour"], instructions := "bake",
    email := "alice@example.com" }

/-- A concrete account-service database. -/
def dbDemo : AppDb := { users := [aliceDemo], favorites := [cakeDemo] }

/-! ### Character and string lemmas -/

theorem char_toNat_ofNat (n : Nat) (h : n < 55296) : (Char.ofNat n).toNat = n := by
  simp [Char.ofNat, Char.ofNatAux, Char.toNat]
  rw [dif_pos (Or.inl h)]
  rfl

theorem lowerChar_idem (c : Char) : lowerChar (lowerChar c) = lowerChar c := by
  unfold lowerChar
  split
  · rename_i h
    rw [if_neg]
    rw [char_toNat_ofNat _ (by omega)]
    omega
  · rfl

theorem not_ws_of_ge (c : Char) (h : 65 ≤ c.toNat) : c.isWhitespace = false := by
  simp only [Char.isWhitespace, Bool.or_eq_false_iff, decide_eq_false_iff_not]
  have hsp : (' ' : Char).toNat = 32 := rfl
  have hta : ('\t' : Char).toNat = 9 := rfl
  have hcr : ('\r' : Char).toNat = 13 := rfl
  have hnl : ('\n' : Char).toNat = 10 := rfl
  refine ⟨⟨⟨?_, ?_⟩, ?_⟩, ?_⟩ <;> intro hx
  · have hcn := congrArg Char.toNat hx
    rw [hsp] at hcn
    omega
  · have hcn := congrArg Char.toNat hx
    rw [hta] at hcn
    omega
  · have hcn := congrArg Char.toNat hx
    rw [hcr] at hcn
    omega
  · have hcn := congrArg Char.toNat hx
    rw [hnl] at hcn
    omega

theorem lowerChar_whitespace (c : Char) :
    (lowerChar c).isWhitespace = c.isWhitespace := by
  unfold lowerChar
  split
  · rename_i h
    rw [not_ws_of_ge c (by omega), not_ws_of_ge]
    rw [char_toNat_ofNat _ (by omega)]
    omega
  · rfl

theorem map_lowerChar_idem (l : List Char) :
    (l.map lowerChar).map lowerChar = l.map lowerChar := by
  induction l with
  | nil => rfl
  | cons c cs ih => simp only [List.map_cons, ih, lowerChar_idem]

theorem lowerStr_idem (s : String) : lowerStr (lowerStr s) = lowerStr s := by
  unfold lowerStr
  exact congrArg String.mk (map_lowerChar_idem s.data)

theorem pySplitAux_lower (l : List Char) : ∀ acc : List Char,
    pySplitAux (acc.map lowerChar) (l.map lowerChar) =
      (pySplitAux acc l).map lowerStr := by
  induction l with
  | nil =>
    intro acc
    cases acc with
    | nil => rfl
    | cons a as =>
      simp only [List.map_cons, pySplitAux, List.isEmpty_cons, if_neg]
      simp only [Bool.false_eq_true, if_false, List.map_cons, List.map_nil]
      unfold lowerStr
      rw [show (String.mk ((a :: as).reverse)).data = (a :: as).reverse from rfl]
      rw [List.map_reverse]
      rfl
  | cons c cs ih =>
    intro acc
    simp only [List.map_cons, pySplitAux, lowerChar_whitespace]
    by_cases hws : c.isWhitespace = true
    · rw [if_pos hws, if_pos hws]
      rw [List.map_append]
      have tail := ih []
      simp only [List.map_nil] at tail
      rw [tail]
      cases acc with
      | nil => rfl
      | cons a as =>
        simp only [List.map_cons, List.isEmpty_cons]
        simp only [Bool.false_eq_true, if_false, List.map_cons, List.map_nil]
        unfold lowerStr
        rw [show (String.mk ((a :: as).reverse)).data = (a :: as).reverse from rfl]
        rw [List.map_reverse]
        rfl
    · rw [if_neg hws, if_neg hws]
      have step := ih (c :: acc)
      simp only [List.map_cons] at step
      exact step

theorem pySplit_lowerStr (s : String) :
    pySplit (lowerStr s) = (pySplit s).map lowerStr := by
  unfold pySplit
  have h := pySplitAux_lower s.data []
  simp only [List.map_nil] at h
  rw [show (lowerStr s).data = s.data.map lowerChar from rfl]
  exact h

theorem pySplitAux_all_ws (l : List Char)
    (h : ∀ c ∈ l, c.isWhitespace = true) : pySplitAux [] l = [] := by
  induction l with
  | nil => rfl
  | cons c cs ih =>
    simp only [pySplitAux]
    rw [if_pos (h c (List.mem_cons_self c cs))]
    simp only [List.isEmpty_nil, if_pos, List.nil_append]
    exact ih (fun x hx => h x (List.mem_cons_of_mem c hx))

theorem pySplit_all_ws (s : String)
    (h : ∀ c ∈ s.data, c.isWhitespace = true) : pySplit s = [] :=
  pySplitAux_all_ws s.data h

/-! ### Collection operation lemmas -/

theorem updateFirst_all_false (p : UserRec → Bool) (f : UserRec → UserRec)
    (l : List UserRec) (h : ∀ u ∈ l, p u = false) : updateFirst p f l = (l, 0) := by
  induction l with
  | nil => rfl
  | cons u us ih =>
    simp only [updateFirst]
    rw [if_neg (by rw [h u (List.mem_cons_self u us)]; exact Bool.false_ne_true)]
    rw [ih (fun x hx => h x (List.mem_cons_of_mem u hx))]

theorem updateFirst_split (p : UserRec → Bool) (f : UserRec → UserRec)
    (pre : List UserRec) (u : UserRec) (post : List UserRec)
    (hpre : ∀ v ∈ pre, p v = false) (hu : p u = true) :
    updateFirst p f (pre ++ u :: post) =
      (pre ++ f u :: post, if f u = u then 0 else 1) := by
  induction pre with
  | nil => simp only [List.nil_append, updateFirst, if_pos hu]
  | cons v vs ih =>
    simp only [List.cons_append, updateFirst]
    rw [if_neg (by rw [hpre v (List.mem_cons_self v vs)]; exact Bool.false_ne_true)]
    exact congrArg (fun r => (v :: r.1, r.2))
      (ih (fun x hx => hpre x (List.mem_cons_of_mem v hx)))

theorem deleteFirst_all_false {α : Type} (p : α → Bool) (l : List α)
    (h : ∀ a ∈ l, p a = false) : deleteFirst p l = (l, 0) := by
  induction l with
  | nil => rfl
  | cons a as ih =>
    simp only [deleteFirst]
    rw [if_neg (by rw [h a (List.mem_cons_self a as)]; exact Bool.false_ne_true)]
    rw [ih (fun x hx => h x (List.mem_cons_of_mem a hx))]

theorem deleteFirst_sublist {α : Type} (p : α → Bool) (l : List α) :
    List.Sublist (deleteFirst p l).1 l := by
  induction l with
  | nil => exact List.Sublist.refl []
  | cons a as ih =>
    simp only [deleteFirst]
    by_cases hp : p a = true
    · rw [if_pos hp]
      exact List.sublist_cons_self a as
    · rw [if_neg hp]
      exact List.Sublist.cons₂ a ih

/-! ### Claims about the recipe search service -/

/-- Claim C1: for every catalog and query, the /search endpoint answers 400
with the required-parameter message on an empty query, and on a non-empty
query returns exactly the catalog recipes whose name contains every
whitespace-delimited token of the query as a case-insensitive substring. -/
theorem search_by_name_spec (evalIng : String → List String)
    (rows : List RecipeRow) (query : String) :
    search evalIng (.table rows) "" = .errorResponse 400 "Query parameter is required."
    ∧ (query ≠ "" →
        ∃ rs, search evalIng (.table rows) query = .results (.recipes rs)
          ∧ ∀ r : Recipe, r ∈ rs ↔
              r ∈ rows.map (structureRecipe evalIng) ∧ nameMatchesQuery query r) := by
  constructor
  · rfl
  · intro hq
    refine ⟨(rows.map (structureRecipe evalIng)).filter (fun r =>
      ((pySplit (lowerStr query)).dedup).all (fun w => hasSub w (lowerStr r.name))), ?_, ?_⟩
    · unfold search
      rw [if_neg hq]
      rfl
    · intro r
      rw [List.mem_filter]
      refine and_congr_right (fun _ => ?_)
      rw [List.all_eq_true]
      unfold nameMatchesQuery
      constructor
      · intro h w hw
        refine h (lowerStr w) (List.mem_dedup.mpr ?_)
        rw [pySplit_lowerStr]
        exact List.mem_map_of_mem lowerStr hw
      · intro h w hw
        have hw2 := List.mem_dedup.mp hw
        rw [pySplit_lowerStr] at hw2
        obtain ⟨x, hx, rfl⟩ := List.mem_map.mp hw2
        exact h x hx

/-- Witness for C1: the theorem applied to the demo catalog and the query
Chicken Soup. -/
theorem search_by_name_spec_witness :
    ∃ rs, search evalDemo (.table rowsDemo) "Chicken Soup" = .results (.recipes rs)
      ∧ ∀ r : Recipe, r ∈ rs ↔
          r ∈ rowsDemo.map (structureRecipe evalDemo)
            ∧ nameMatchesQuery "Chicken Soup" r :=
  (search_by_name_spec evalDemo rowsDemo "Chicken Soup").2 (by decide)

/-- Claim C10: a non-empty query made only of whitespace passes the
emptiness check of /search, splits into no tokens, and so matches every
recipe of the catalog. -/
theorem whitespace_query_returns_all (evalIng : String → List String)
    (rows : List RecipeRow) (query : String) (h1 : query ≠ "")
    (h2 : ∀ c ∈ query.data, c.isWhitespace = true) :
    search evalIng (.table rows) query =
      .results (.recipes (rows.map (structureRecipe evalIng))) := by
  unfold search
  rw [if_neg h1]
  have hsr : search_recipes evalIng (.table rows) query =
      .recipes ((rows.map (structureRecipe evalIng)).filter (fun r =>
        ((pySplit (lowerStr query)).dedup).all (fun w => hasSub w (lowerStr r.name)))) := rfl
  rw [hsr, pySplit_lowerStr, pySplit_all_ws query h2]
  simp only [List.map_nil, List.dedup_nil, List.all_nil, List.filter_true]

/-- Witness for C10: a single-space query over the demo catalog returns the
whole catalog. -/
theorem whitespace_query_returns_all_witness :
    search evalDemo (.table rowsDemo) " " =
      .results (.recipes (rowsDemo.map (structureRecipe evalDemo))) :=
  whitespace_query_returns_all evalDemo rowsDemo " " (by decide) (by decide)

/-- Claim C2: for every catalog, the /search_by_ingredients endpoint answers
400 on an empty request list, and on a non-empty list returns exactly the
catalog recipes where each requested ingredient occurs case-insensitively in
at least one entry of the recipe's own ingredient list. -/
theorem search_by_ingredients_spec (evalIng : String → List String)
    (rows : List RecipeRow) (ingredients : List String) :
    search_by_ingredients evalIng (.table rows) [] =
      .errorResponse 400 "Ingredients list is required."
    ∧ (ingredients ≠ [] →
        ∃ rs, search_by_ingredients evalIng (.table rows) ingredients =
            .results (.recipes rs)
          ∧ ∀ r : Recipe, r ∈ rs ↔
              r ∈ rows.map (structureRecipe evalIng)
                ∧ ingredientsMatch ingredients r) := by
  constructor
  · rfl
  · intro hi
    refine ⟨(rows.map (structureRecipe evalIng)).filter (fun r =>
      (ingredients.map lowerStr).all (fun ing =>
        r.ingredients.any (fun item => hasSub (lowerStr ing) (lowerStr item)))), ?_, ?_⟩
    · unfold search_by_ingredients
      rw [if_neg hi]
      rfl
    · intro r
      rw [List.mem_filter]
      refine and_congr_right (fun _ => ?_)
      rw [List.all_eq_true]
      unfold ingredientsMatch
      constructor
      · intro h ing hing
        have h2 := h (lowerStr ing) (List.mem_map_of_mem lowerStr hing)
        rw [lowerStr_idem, List.any_eq_true] at h2
        exact h2
      · intro h w hw
        obtain ⟨ing, hing, rfl⟩ := List.mem_map.mp hw
        rw [lowerStr_idem, List.any_eq_true]
        exact h ing hing

/-- Witness for C2: the theorem applied to the demo catalog and the request
list holding salt. -/
theorem search_by_ingredients_spec_witness :
    ∃ rs, search_by_ingredients evalDemo (.table rowsDemo) ["salt"] =
        .results (.recipes rs)
      ∧ ∀ r : Recipe, r ∈ rs ↔
          r ∈ rowsDemo.map (structureRecipe evalDemo)
            ∧ ingredientsMatch ["salt"] r :=
  (search_by_ingredients_spec evalDemo rowsDemo ["salt"]).2 (by decide)

/-- Claim C8: /all_recipes returns every structured catalog row when the
table is readable, a 404 error payload when the backing file is missing, and
a 500 backend-error payload when the query raises an operational error. -/
theorem all_recipes_endpoint_spec (evalIng : String → List String)
    (rows : List RecipeRow) (e : String) :
    get_all evalIng (.table rows) =
      .results (.recipes (rows.map (structureRecipe evalIng)))
    ∧ get_all evalIng .missing = .errorResponse 404 "Database file not found."
    ∧ get_all evalIng (.opError e) =
        .errorResponse 500 (String.append "Database error: " e) :=
  ⟨rfl, rfl, rfl⟩

/-! ### Claims about the account service -/

/-- Claim C6: PUT /users/ answers 403 Forbidden whenever the email in the
body differs from the authenticated caller's email, and in that case the
database is left unchanged. -/
theorem update_user_forbidden (hs : HashScheme) (imageOk : String → Bool)
    (db : AppDb) (current_email : String) (user : UserIn)
    (h : current_email ≠ user.email) :
    update_user hs imageOk db current_email user =
      (db, .error ⟨403, "You can only update your own profile"⟩) := by
  unfold update_user
  have hb : (current_email == user.email) = false := beq_eq_false_iff_ne.mpr h
  rw [if_pos (by rw [hb]; rfl)]

/-- Witness for C6: a token for Alice with a body for Bob is rejected. -/
theorem update_user_forbidden_witness :
    update_user hsDemo imageOkDemo dbDemo "alice@example.com"
        { name := "Bob", email := "bob@example.com", password := none,
          profile_image := none } =
      (dbDemo, .error ⟨403, "You can only update your own profile"⟩) :=
  update_user_forbidden hsDemo imageOkDemo dbDemo "alice@example.com"
    { name := "Bob", email := "bob@example.com", password := none,
      profile_image := none } (by decide)

/-- Claim C9: DELETE /users/delete_account/ deletes the caller's favorites
before checking the user record, so when it fails with 404 NotFound the
favorites are already gone: the state changes even on the error path. -/
theorem delete_account_not_atomic (db : AppDb) (email : String)
    (hno : ∀ u ∈ db.users, u.email ≠ email) :
    delete_user_account db email =
      ({ users := db.users,
         favorites := db.favorites.filter (fun f => !(f.email == email)) },
       .error ⟨404, "User not found"⟩)
    ∧ ((∃ f ∈ db.favorites, f.email = email) →
        (delete_user_account db email).1.favorites ≠ db.favorites) := by
  have hfalse : ∀ u ∈ db.users, (fun u : UserRec => u.email == email) u = false :=
    fun u hu => beq_eq_false_iff_ne.mpr (hno u hu)
  have hdel := deleteFirst_all_false (fun u : UserRec => u.email == email) db.users hfalse
  have heq : delete_user_account db email =
      ({ users := db.users,
         favorites := db.favorites.filter (fun f => !(f.email == email)) },
       .error ⟨404, "User not found"⟩) := by
    simp only [delete_user_account]
    rw [hdel]
    rfl
  refine ⟨heq, fun hex => ?_⟩
  intro hcontra
  rw [heq] at hcontra
  have hcontra2 : db.favorites.filter (fun f => !(f.email == email)) = db.favorites :=
    hcontra
  obtain ⟨f, hf, hfe⟩ := hex
  have hmem : f ∈ db.favorites.filter (fun f => !(f.email == email)) := by
    rw [hcontra2]; exact hf
  rw [List.mem_filter] at hmem
  have hb : (f.email == email) = false := by simpa using hmem.2
  exact beq_eq_false_iff_ne.mp hb hfe

/-- Witness for C9: with no user on file but one favorite owned by the
target email, the error path still empties the favorites. -/
theorem delete_account_not_atomic_witness :
    (delete_user_account { users := [], favorites := [cakeDemo] }
        "alice@example.com").1.favorites ≠
      ({ users := [], favorites := [cakeDemo] } : AppDb).favorites :=
  (delete_account_not_atomic { users := [], favorites := [cakeDemo] }
      "alice@example.com" (by simp)).2 (by decide)

/-- Claim C4: POST /users/ fails with the duplicate-email conflict (HTTP
400 here) when the email is already registered — in particular on the
second of two registrations of the same email — leaving the user store
unchanged, and otherwise appends a user whose password field holds the
hash of the supplied password. -/
theorem create_user_spec (hs : HashScheme) (db : AppDb) (user : UserIn)
    (pw : String) (hpw : user.password = some pw) :
    ((∃ u ∈ db.users, u.email = user.email) →
      create_user hs db user = (db, .error ⟨400, "Email already registered"⟩))
    ∧ ((¬ ∃ u ∈ db.users, u.email = user.email) →
        create_user hs db user =
          ({ db with users := db.users ++
              [{ name := user.name, email := user.email, password := hs.hash pw,
                 profile_image := user.profile_image }] },
           .ok "User created successfully")
        ∧ ∀ user2 : UserIn, user2.email = user.email →
            create_user hs (create_user hs db user).1 user2 =
              ((create_user hs db user).1,
               .error ⟨400, "Email already registered"⟩)) := by
  have conflict : ∀ (d : AppDb) (u2 : UserIn),
      (∃ u ∈ d.users, u.email = u2.email) →
      create_user hs d u2 = (d, .error ⟨400, "Email already registered"⟩) := by
    intro d u2 hex
    obtain ⟨u, hu, he⟩ := hex
    have hsome : (findUserByEmail d u2.email).isSome := by
      unfold findUserByEmail
      rw [List.find?_isSome]
      exact ⟨u, hu, beq_iff_eq.mpr he⟩
    obtain ⟨u0, hu0⟩ := Option.isSome_iff_exists.mp hsome
    unfold create_user
    rw [hu0]
  refine ⟨conflict db user, fun hno => ?_⟩
  have hfind : findUserByEmail db user.email = none := by
    unfold findUserByEmail
    rw [List.find?_eq_none]
    intro u hu hbe
    exact hno ⟨u, hu, beq_iff_eq.mp hbe⟩
  have hsucc : create_user hs db user =
      ({ db with users := db.users ++
          [{ name := user.name, email := user.email, password := hs.hash pw,
             profile_image := user.profile_image }] },
       .ok "User created successfully") := by
    unfold create_user
    rw [hfind, hpw]
  refine ⟨hsucc, fun user2 he2 => ?_⟩
  apply conflict
  rw [hsucc]
  exact ⟨{ name := user.name, email := user.email, password := hs.hash pw,
           profile_image := user.profile_image },
         List.mem_append_right _ (List.mem_singleton.mpr rfl), he2.symm⟩

/-- Witness for C4: registering Alice into an empty store hashes and stores
the password. -/
theorem create_user_spec_witness :
    create_user hsDemo { users := [], favorites := [] }
        { name := "Alice", email := "alice@example.com", password := some "pw",
          profile_image := none } =
      ({ users := [{ name := "Alice", email := "alice@example.com",
                     password := hsDemo.hash "pw", profile_image := none }],
         favorites := [] },
       .ok "User created successfully") :=
  ((create_user_spec hsDemo { users := [], favorites := [] }
      { name := "Alice", email := "alice@example.com", password := some "pw",
        profile_image := none } "pw" rfl).2 (by simp)).1

/-- Claim C5: the favorites store keeps (email, name) unique — POST
/recipes/ answers 400 Conflict when the caller already has a favorite of
that name, otherwise inserts the record tagged with the caller's email, and
every favorites-touching operation preserves key uniqueness. -/
theorem add_favorite_spec (db : AppDb) (email : String)
    (recipe : FavoriteRecipeIn) (title : String) :
    ((∃ f ∈ db.favorites, f.email = email ∧ f.name = recipe.name) →
      add_favorite_recipe db email recipe =
        (db, .error ⟨400, "Recipe with this title already exists for the user"⟩))
    ∧ ((¬ ∃ f ∈ db.favorites, f.email = email ∧ f.name = recipe.name) →
        add_favorite_recipe db email recipe =
          ({ db with favorites := db.favorites ++
              [{ image := recipe.image, name := recipe.name,
                 ingredients := recipe.ingredients,
                 instructions := recipe.instructions, email := email }] },
           .ok "Recipe added successfully"))
    ∧ (favKeyUnique db.favorites →
        favKeyUnique (add_favorite_recipe db email recipe).1.favorites)
    ∧ (favKeyUnique db.favorites →
        favKeyUnique (delete_favorite_recipe db email title).1.favorites)
    ∧ (favKeyUnique db.favorites →
        favKeyUnique (delete_user_account db email).1.favorites) := by
  have hconf : (∃ f ∈ db.favorites, f.email = email ∧ f.name = recipe.name) →
      add_favorite_recipe db email recipe =
        (db, .error ⟨400, "Recipe with this title already exists for the user"⟩) := by
    intro hex
    obtain ⟨f, hf, he1, he2⟩ := hex
    have hsome : (findFavorite db email recipe.name).isSome := by
      unfold findFavorite
      rw [List.find?_isSome]
      refine ⟨f, hf, ?_⟩
      rw [Bool.and_eq_true, beq_iff_eq, beq_iff_eq]
      exact ⟨he1, he2⟩
    obtain ⟨f0, hf0⟩ := Option.isSome_iff_exists.mp hsome
    simp only [add_favorite_recipe, hf0]
  have hins : (¬ ∃ f ∈ db.favorites, f.email = email ∧ f.name = recipe.name) →
      add_favorite_recipe db email recipe =
        ({ db with favorites := db.favorites ++
            [{ image := recipe.image, name := recipe.name,
               ingredients := recipe.ingredients,
               instructions := recipe.instructions, email := email }] },
         .ok "Recipe added successfully") := by
    intro hno
    have hfind : findFavorite db email recipe.name = none := by
      unfold findFavorite
      rw [List.find?_eq_none]
      intro f hf hb
      rw [Bool.and_eq_true, beq_iff_eq, beq_iff_eq] at hb
      exact hno ⟨f, hf, hb⟩
    simp only [add_favorite_recipe, hfind]
  refine ⟨hconf, hins, ?_, ?_, ?_⟩
  · intro hinv
    by_cases hex : ∃ f ∈ db.favorites, f.email = email ∧ f.name = recipe.name
    · rw [hconf hex]
      exact hinv
    · rw [hins hex]
      show favKeyUnique (db.favorites ++
        [{ image := recipe.image, name := recipe.name,
           ingredients := recipe.ingredients,
           instructions := recipe.instructions, email := email }])
      unfold favKeyUnique at hinv ⊢
      rw [List.pairwise_append]
      refine ⟨hinv, by simp, ?_⟩
      intro a ha b hb
      rw [List.mem_singleton] at hb
      subst hb
      rintro ⟨h1, h2⟩
      exact hex ⟨a, ha, h1, h2⟩
  · intro hinv
    have hd : (delete_favorite_recipe db email title).1.favorites = db.favorites ∨
        (delete_favorite_recipe db email title).1.favorites =
          (deleteFirst (fun f => f.email == email && f.name == title)
            db.favorites).1 := by
      simp only [delete_favorite_recipe]
      cases findFavorite db email title with
      | none => exact Or.inl rfl
      | some f => exact Or.inr rfl
    rcases hd with h | h
    · rw [h]; exact hinv
    · rw [h]
      exact List.Pairwise.sublist (deleteFirst_sublist _ _) hinv
  · intro hinv
    have he : (delete_user_account db email).1.favorites =
        db.favorites.filter (fun f => !(f.email == email)) := by
      simp only [delete_user_account]
      split <;> rfl
    rw [he]
    exact List.Pairwise.sublist (List.filter_sublist _) hinv

/-- Witness for C5: adding a favorite named Cake twice for Alice hits the
Conflict on the second attempt. -/
theorem add_favorite_spec_witness :
    add_favorite_recipe dbDemo "alice@example.com"
        { image := "j", name := "Cake", ingredients := [], instructions := "x" } =
      (dbDemo,
       .error ⟨400, "Recipe with this title already exists for the user"⟩) :=
  (add_favorite_spec dbDemo "alice@example.com"
      { image := "j", name := "Cake", ingredients := [], instructions := "x" }
      "T").1 (by decide)

/-- Claim C7: a successful PUT /users/ writes only the fields supplied in
the request to the first user matching the caller's email — absent password
and profile_image keep their stored values, a supplied password is stored
rehashed, a supplied profile_image is overwritten — and the handler answers
404 NotFound whenever update_one modifies zero records. -/
theorem update_user_frame (hs : HashScheme) (imageOk : String → Bool)
    (db : AppDb) (current_email : String) (user : UserIn)
    (hmail : user.email = current_email)
    (himg : ∀ url ∈ user.profile_image, imageOk url = true) :
    ((∀ v ∈ db.users, v.email ≠ current_email) →
      update_user hs imageOk db current_email user =
        (db, .error ⟨404, "User not found or no changes made"⟩))
    ∧ (∀ pre u post, db.users = pre ++ u :: post →
        (∀ v ∈ pre, v.email ≠ current_email) → u.email = current_email →
        ((applyUpdate hs user u ≠ u →
            update_user hs imageOk db current_email user =
              ({ db with users := pre ++ applyUpdate hs user u :: post },
               .ok "Profile updated successfully"))
          ∧ (applyUpdate hs user u = u →
              update_user hs imageOk db current_email user =
                (db, .error ⟨404, "User not found or no changes made"⟩))
          ∧ (applyUpdate hs user u).name = user.name
          ∧ (applyUpdate hs user u).email = user.email
          ∧ (∀ pw, user.password = some pw →
              (applyUpdate hs user u).password = hs.hash pw)
          ∧ (user.password = none →
              (applyUpdate hs user u).password = u.password)
          ∧ (∀ url, user.profile_image = some url →
              (applyUpdate hs user u).profile_image = some url)
          ∧ (user.profile_image = none →
              (applyUpdate hs user u).profile_image = u.profile_image))) := by
  have hguard1 : (!(current_email == user.email)) = false := by
    rw [beq_iff_eq.mpr hmail.symm]
    rfl
  have hguard2 : (pyTruthyOpt user.profile_image &&
      !(imageOk (user.profile_image.getD ""))) = false := by
    cases hpi : user.profile_image with
    | none => rfl
    | some url =>
      by_cases hurl : url = ""
      · subst hurl
        simp [pyTruthyOpt]
      · have hok : imageOk url = true := himg url (by rw [hpi]; rfl)
        simp [pyTruthyOpt, hok]
  have hred : update_user hs imageOk db current_email user =
      (if (updateFirst (fun u => u.email == current_email)
            (applyUpdate hs user) db.users).2 = 0
       then (db, .error ⟨404, "User not found or no changes made"⟩)
       else ({ db with users := (updateFirst (fun u => u.email == current_email)
                (applyUpdate hs user) db.users).1 },
             .ok "Profile updated successfully")) := by
    simp only [update_user]
    rw [if_neg (by rw [hguard1]; exact Bool.false_ne_true)]
    rw [if_neg (by rw [hguard2]; exact Bool.false_ne_true)]
  constructor
  · intro hno
    rw [hred]
    rw [updateFirst_all_false _ _ _
      (fun v hv => beq_eq_false_iff_ne.mpr (hno v hv))]
    rfl
  · intro pre u post hsplit hpre hu
    have hstep : updateFirst (fun u => u.email == current_email)
        (applyUpdate hs user) db.users =
        (pre ++ applyUpdate hs user u :: post,
         if applyUpdate hs user u = u then 0 else 1) := by
      rw [hsplit]
      exact updateFirst_split _ _ pre u post
        (fun v hv => beq_eq_false_iff_ne.mpr (hpre v hv)) (beq_iff_eq.mpr hu)
    refine ⟨?_, ?_, rfl, rfl, ?_, ?_, ?_, ?_⟩
    · intro hne
      rw [hred, hstep, if_neg hne]
      rw [if_neg (by exact Nat.one_ne_zero)]
    · intro he
      rw [hred, hstep, if_pos he]
      rw [if_pos (by rfl)]
    · intro pw hpw
      show (match user.password with
        | some pw => hs.hash pw
        | none => u.password) = hs.hash pw
      rw [hpw]
    · intro hpw
      show (match user.password with
        | some pw => hs.hash pw
        | none => u.password) = u.password
      rw [hpw]
    · intro url hpi
      show (match user.profile_image with
        | some url => some url
        | none => u.profile_image) = some url
      rw [hpi]
    · intro hpi
      show (match user.profile_image with
        | some url => some url
        | none => u.profile_image) = u.profile_image
      rw [hpi]

/-- Witness for C7: a name-only update for Alice rewrites the name and
keeps her stored password hash. -/
theorem update_user_frame_witness :
    update_user hsDemo imageOkDemo dbDemo "alice@example.com"
        { name := "Alice Cooper", email := "alice@example.com", password := none,
          profile_image := none } =
      ({ dbDemo with users := [{ name := "Alice Cooper",
                                 email := "alice@example.com",
                                 password := "hpw", profile_image := none }] },
       .ok "Profile updated successfully") := by
  have h := (update_user_frame hsDemo imageOkDemo dbDemo "alice@example.com"
      { name := "Alice Cooper", email := "alice@example.com", password := none,
        profile_image := none } rfl (by simp)).2 [] aliceDemo [] rfl
      (by simp) rfl
  exact h.1 (by decide)

/-- Claim C3: POST /token answers 401 Unauthorized exactly when no user
carries the form email or the password fails verification against the
stored hash; otherwise it issues a bearer token whose subject is the user's
email and whose expiry is 30 minutes (1800 seconds) after issuance. -/
theorem login_spec (hs : HashScheme) (db : AppDb) (now : Nat)
    (email password : String) (hu : emailsUnique db) :
    ((∃ e, login_for_access_token hs db now email password = .error e ∧
        e.status = 401) ↔
      ((¬ ∃ u ∈ db.users, u.email = email) ∨
        (∃ u ∈ db.users, u.email = email ∧
          hs.verify password u.password = false)))
    ∧ (∀ u ∈ db.users, u.email = email →
        hs.verify password u.password = true →
        login_for_access_token hs db now email password =
          .ok { access_token := { sub := email, exp := now + 30 * 60 },
                token_type := "bearer" }) := by
  have huniq : ∀ u1 ∈ db.users, ∀ u2 ∈ db.users, u1.email = u2.email → u1 = u2 := by
    intro u1 h1 u2 h2 he
    exact List.inj_on_of_nodup_map hu h1 h2 he
  cases hfind : findUserByEmail db email with
  | none =>
    have hnone : ∀ u ∈ db.users, u.email ≠ email := by
      intro u hu2 he
      exact List.find?_eq_none.mp hfind u hu2 (beq_iff_eq.mpr he)
    have hlogin : login_for_access_token hs db now email password =
        .error ⟨401, "Invalid email or password"⟩ := by
      simp only [login_for_access_token, hfind]
    constructor
    · constructor
      · intro _
        exact Or.inl (fun hex => by
          obtain ⟨u, hm, he⟩ := hex
          exact hnone u hm he)
      · intro _
        exact ⟨⟨401, "Invalid email or password"⟩, hlogin, rfl⟩
    · intro u hm he _
      exact absurd he (hnone u hm)
  | some u0 =>
    have hfind2 : db.users.find? (fun u => u.email == email) = some u0 := hfind
    have hu0mem : u0 ∈ db.users := List.mem_of_find?_eq_some hfind2
    have hp0 := List.find?_some hfind2
    have hu0email : u0.email = email := beq_iff_eq.mp hp0
    cases hv : hs.verify password u0.password with
    | false =>
      have hlogin : login_for_access_token hs db now email password =
          .error ⟨401, "Invalid email or password"⟩ := by
        simp only [login_for_access_token, hfind, hv]
        rfl
      constructor
      · constructor
        · intro _
          exact Or.inr ⟨u0, hu0mem, hu0email, hv⟩
        · intro _
          exact ⟨⟨401, "Invalid email or password"⟩, hlogin, rfl⟩
      · intro u hm he hvt
        have heq : u = u0 := huniq u hm u0 hu0mem (by rw [he, hu0email])
        rw [heq] at hvt
        rw [hvt] at hv
        exact absurd hv (by decide)
    | true =>
      have hlogin : login_for_access_token hs db now email password =
          .ok { access_token := { sub := u0.email, exp := now + 30 * 60 },
                token_type := "bearer" } := by
        simp only [login_for_access_token, hfind, hv]
        rfl
      constructor
      · apply iff_of_false
        · rintro ⟨e, he, -⟩
          rw [hlogin] at he
          exact Except.noConfusion he
        · rintro (hl | hr)
          · exact hl ⟨u0, hu0mem, hu0email⟩
          · obtain ⟨u, hm, he, hvf⟩ := hr
            have heq : u = u0 := huniq u hm u0 hu0mem (by rw [he, hu0email])
            rw [heq] at hvf
            rw [hvf] at hv
            exact absurd hv (by decide)
      · intro u hm he hvt
        rw [hlogin, hu0email]

/-- Witness for C3: Alice logs in with the matching password and receives a
token for her email expiring 1800 seconds later. -/
theorem login_spec_witness :
    login_for_access_token hsDemo dbDemo 1000 "alice@example.com" "pw" =
      .ok { access_token := { sub := "alice@example.com", exp := 1000 + 30 * 60 },
            token_type := "bearer" } :=
  (login_spec hsDemo dbDemo 1000 "alice@example.com" "pw"
      (by unfold emailsUnique; decide)).2
    aliceDemo (by decide) rfl (by decide)

end SupeCook
